import Mathlib

/-!
Verification of the rate-limited HTTP client layer of the
MultiAgentResearch repository: a shallow embedding of the retry/backoff
executor, the rate limiter, the JSON and XML response normalizers and the
client composition, with theorems checking the specified properties.

Network transport, wall clocks and the standard-library XML/JSON parsers
are modelled as explicit parameters (an operation is a function from the
invocation index to its outcome; time is passed explicitly; a parsed
document is an explicit tree).  Python exceptions are modelled as explicit
error results; Python `float` values used for delays and backoff factors
are modelled as rationals.
-/

namespace MultiAgentResearch

/-- A JSON value as held in a Python dict.  The normalizers never inspect
values other than by passing them through, so a flat model with
constructors for the default values the code manufactures suffices. -/
inductive JVal where
  | jnull
  | jstr (s : String)
  | jnum (n : Int)
  | jbool (b : Bool)
  | jarr (xs : List JVal)
deriving Repr

/-- A Python dict of JSON values, in insertion order.  Lookups take the
last binding for a key, matching Python assignment semantics when a list
holds several bindings of one key. -/
abbrev JDict := List (String × JVal)

/-- Lookup in a `JDict`, last binding wins. -/
def dget : JDict → String → Option JVal
  | [], _ => none
  | (k', v) :: rest, k =>
    match dget rest k with
    | some w => some w
    | none => if k' = k then some v else none

/-- Key membership in a `JDict` (Python `key in dict`). -/
def dmem (d : JDict) (k : String) : Bool :=
  d.any (fun p => p.1 = k)

/-- `field_mapping` of `SemanticScholarPaper.from_dict` (models.py): API
field names to model field names. -/
def paper_field_mapping : List (String × String) :=
  [("paperId", "paper_id"),
   ("citationCount", "citation_count"),
   ("referenceCount", "reference_count"),
   ("influentialCitationCount", "influential_citation_count"),
   ("arxivId", "arxiv_id"),
   ("corpusId", "corpus_id"),
   ("externalIds", "external_ids"),
   ("publicationTypes", "publication_types"),
   ("publicationDate", "publication_date")]

/-- Rename one key through a mapping table (`field_mapping.get(key, key)`). -/
def renameKey (m : List (String × String)) (k : String) : String :=
  match m.lookup k with
  | some v => v
  | none => k

/-- The constructor parameters of `SemanticScholarPaper`
(`inspect.signature(cls).parameters.keys()`). -/
def paper_valid_fields : List String :=
  ["paper_id", "title", "abstract", "authors", "year", "citation_count",
   "reference_count", "influential_citation_count", "venue", "url",
   "arxiv_id", "doi", "corpus_id", "external_ids", "publication_types",
   "publication_date", "journal", "citations", "references", "embedding",
   "tldr"]

/-- The `SemanticScholarPaper` dataclass (models.py).  Python dataclass
fields are dynamically typed, so every field holds a `JVal`; the four
trailing fields carry dataclass defaults of `None`. -/
structure SemanticScholarPaper where
  paper_id : JVal
  title : JVal
  abstract : JVal
  authors : JVal
  year : JVal
  citation_count : JVal
  reference_count : JVal
  influential_citation_count : JVal
  venue : JVal
  url : JVal
  arxiv_id : JVal
  doi : JVal
  corpus_id : JVal
  external_ids : JVal
  publication_types : JVal
  publication_date : JVal
  journal : JVal
  citations : JVal := JVal.jnull
  references : JVal := JVal.jnull
  embedding : JVal := JVal.jnull
  tldr : JVal := JVal.jnull
deriving Repr

/-- The key-conversion loop of `SemanticScholarPaper.from_dict`: rename
each key through the table and keep only keys naming a model field. -/
def convertPaperData : JDict → JDict
  | [] => []
  | (k, v) :: rest =>
    let nk := renameKey paper_field_mapping k
    if paper_valid_fields.contains nk then (nk, v) :: convertPaperData rest
    else convertPaperData rest

/-- The `defaults` table of `SemanticScholarPaper.from_dict`. -/
def paper_defaults : JDict :=
  [("citation_count", JVal.jnum 0),
   ("reference_count", JVal.jnum 0),
   ("influential_citation_count", JVal.jnum 0),
   ("authors", JVal.jarr []),
   ("arxiv_id", JVal.jnull),
   ("doi", JVal.jnull),
   ("corpus_id", JVal.jnull)]

/-- The defaulting loop of `from_dict`
(`for key, default_value in defaults.items(): if key not in
converted_data: ...`): append a default binding for each defaultable key
not already bound. -/
def addDefaultsLoop : JDict → JDict → JDict
  | d, [] => d
  | d, kv :: rest => addDefaultsLoop (if dmem d kv.1 then d else d ++ [kv]) rest

/-- The defaulting step of `SemanticScholarPaper.from_dict`. -/
def addPaperDefaults (d : JDict) : JDict :=
  addDefaultsLoop d paper_defaults

/-- The constructor parameters of `SemanticScholarPaper` without a
dataclass default: a call must bind each of them. -/
def paper_required_fields : List String :=
  ["paper_id", "title", "abstract", "authors", "year", "citation_count",
   "reference_count", "influential_citation_count", "venue", "url",
   "arxiv_id", "doi", "corpus_id", "external_ids", "publication_types",
   "publication_date", "journal"]

/-- `cls(**converted_data)` for `SemanticScholarPaper`: succeeds exactly
when every key names a model field and every field without a dataclass
default is bound; `none` models the `TypeError` Python raises otherwise.
Each field takes its bound value; the four trailing fields fall back to
their dataclass default `None`. -/
def constructPaper (d : JDict) : Option SemanticScholarPaper :=
  if (d.all fun p => paper_valid_fields.contains p.1) &&
     (paper_required_fields.all fun k => (dget d k).isSome) then
    some ⟨(dget d "paper_id").getD JVal.jnull,
          (dget d "title").getD JVal.jnull,
          (dget d "abstract").getD JVal.jnull,
          (dget d "authors").getD JVal.jnull,
          (dget d "year").getD JVal.jnull,
          (dget d "citation_count").getD JVal.jnull,
          (dget d "reference_count").getD JVal.jnull,
          (dget d "influential_citation_count").getD JVal.jnull,
          (dget d "venue").getD JVal.jnull,
          (dget d "url").getD JVal.jnull,
          (dget d "arxiv_id").getD JVal.jnull,
          (dget d "doi").getD JVal.jnull,
          (dget d "corpus_id").getD JVal.jnull,
          (dget d "external_ids").getD JVal.jnull,
          (dget d "publication_types").getD JVal.jnull,
          (dget d "publication_date").getD JVal.jnull,
          (dget d "journal").getD JVal.jnull,
          (dget d "citations").getD JVal.jnull,
          (dget d "references").getD JVal.jnull,
          (dget d "embedding").getD JVal.jnull,
          (dget d "tldr").getD JVal.jnull⟩
  else none

/-- `SemanticScholarPaper.from_dict` (models.py): rename and filter keys,
fill the seven listed defaults, then construct; `none` models a
propagating `TypeError`. -/
def SemanticScholarPaper.from_dict (data : JDict) : Option SemanticScholarPaper :=
  constructPaper (addPaperDefaults (convertPaperData data))

/-- `SemanticScholarPaper.to_dict` (models.py): `asdict(self)`, all
twenty-one fields under their canonical names in declaration order. -/
def SemanticScholarPaper.to_dict (p : SemanticScholarPaper) : JDict :=
  [("paper_id", p.paper_id), ("title", p.title), ("abstract", p.abstract),
   ("authors", p.authors), ("year", p.year),
   ("citation_count", p.citation_count),
   ("reference_count", p.reference_count),
   ("influential_citation_count", p.influential_citation_count),
   ("venue", p.venue), ("url", p.url), ("arxiv_id", p.arxiv_id),
   ("doi", p.doi), ("corpus_id", p.corpus_id),
   ("external_ids", p.external_ids),
   ("publication_types", p.publication_types),
   ("publication_date", p.publication_date), ("journal", p.journal),
   ("citations", p.citations), ("references", p.references),
   ("embedding", p.embedding), ("tldr", p.tldr)]

/-- The `AuthorInfo` dataclass (models.py): eight fields, none with a
dataclass default. -/
structure AuthorInfo where
  author_id : JVal
  name : JVal
  aliases : JVal
  affiliations : JVal
  homepage : JVal
  paper_count : JVal
  citation_count : JVal
  h_index : JVal
deriving Repr

/-- `field_mapping` of `AuthorInfo.from_dict` (models.py). -/
def author_field_mapping : List (String × String) :=
  [("authorId", "author_id"),
   ("paperCount", "paper_count"),
   ("citationCount", "citation_count"),
   ("hIndex", "h_index")]

/-- The constructor parameters of `AuthorInfo`. -/
def author_valid_fields : List String :=
  ["author_id", "name", "aliases", "affiliations", "homepage",
   "paper_count", "citation_count", "h_index"]

/-- The key-conversion loop of `AuthorInfo.from_dict`: it renames every
key but, unlike the paper conversion, keeps unknown keys. -/
def convertAuthorData (d : JDict) : JDict :=
  d.map (fun p => (renameKey author_field_mapping p.1, p.2))

/-- `cls(**converted_data)` for `AuthorInfo`: `none` models the
`TypeError` raised on an unexpected keyword or a missing field (all
eight fields lack dataclass defaults). -/
def constructAuthor (d : JDict) : Option AuthorInfo :=
  if (d.all fun p => author_valid_fields.contains p.1) &&
     (author_valid_fields.all fun k => (dget d k).isSome) then
    some ⟨(dget d "author_id").getD JVal.jnull,
          (dget d "name").getD JVal.jnull,
          (dget d "aliases").getD JVal.jnull,
          (dget d "affiliations").getD JVal.jnull,
          (dget d "homepage").getD JVal.jnull,
          (dget d "paper_count").getD JVal.jnull,
          (dget d "citation_count").getD JVal.jnull,
          (dget d "h_index").getD JVal.jnull⟩
  else none

/-- `AuthorInfo.from_dict` (models.py): rename keys — with no filtering
and no defaulting — then construct. -/
def AuthorInfo.from_dict (data : JDict) : Option AuthorInfo :=
  constructAuthor (convertAuthorData data)

/-- One invocation's outcome for a request operation handed to the retry
executor: a response with an HTTP status and a body, or a raised
transport exception (identified by a code). -/
inductive Outcome (β : Type u) where
  | resp (status : Nat) (body : β)
  | exc (e : Nat)

/-- What the retry executor hands back: a returned value — `none` for
the defensive fall-through, `some (status, body)` for a returned
response — or a re-raised exception. -/
inductive RetryRes (β : Type u) where
  | ret (r : Option (Nat × β))
  | raised (e : Nat)

/-- A run of the retry executor: its outcome, the number of invocations
of the operation, and the list of backoff sleeps in order (seconds, as
rationals). -/
structure RetryRun (β : Type u) where
  outcome : RetryRes β
  calls : Nat
  sleeps : List ℚ

/-- The body of the `for attempt in range(max_retries + 1)` loop of
`handle_rate_limit_retry` (utils.py), with the invocation index made
explicit; `fuel` counts the iterations the range still allows. -/
def retryGo (op : Nat → Outcome β) (max_retries : Nat) (backoff_factor : ℚ) :
    Nat → Nat → RetryRun β
  | _, 0 => ⟨RetryRes.ret none, 0, []⟩
  | attempt, fuel + 1 =>
    match op attempt with
    | Outcome.resp status body =>
      if status = 200 then ⟨RetryRes.ret (some (status, body)), 1, []⟩
      else if status = 429 then
        if attempt < max_retries then
          let r := retryGo op max_retries backoff_factor (attempt + 1) fuel
          ⟨r.outcome, r.calls + 1, backoff_factor ^ attempt :: r.sleeps⟩
        else ⟨RetryRes.ret (some (status, body)), 1, []⟩
      else ⟨RetryRes.ret (some (status, body)), 1, []⟩
    | Outcome.exc e =>
      if attempt < max_retries then
        let r := retryGo op max_retries backoff_factor (attempt + 1) fuel
        ⟨r.outcome, r.calls + 1, backoff_factor ^ attempt :: r.sleeps⟩
      else ⟨RetryRes.raised e, 1, []⟩

/-- `handle_rate_limit_retry` (utils.py): run the loop from attempt 0
with `max_retries + 1` iterations available. -/
def handle_rate_limit_retry (op : Nat → Outcome β) (max_retries : Nat)
    (backoff_factor : ℚ) : RetryRun β :=
  retryGo op max_retries backoff_factor 0 (max_retries + 1)

/-- The `RateLimiter` state (utils.py): the configured delay and the
`last_request_time` timestamp, both in seconds modelled as rationals; a
fresh instance carries `last_request_time = 0.0`. -/
structure RateLimiter where
  delay : ℚ
  last_request_time : ℚ

/-- `RateLimiter.wait` (utils.py) with time passed explicitly: given the
clock reading `now` at entry, return the seconds slept and the updated
state.  The source reads the clock again after sleeping to store
`last_request_time`; the model idealizes that second reading as
`now + sleep` (exact sleep, no processing time). -/
def RateLimiter.wait (rl : RateLimiter) (now : ℚ) : ℚ × RateLimiter :=
  let time_since_last := now - rl.last_request_time
  let sleep := if time_since_last < rl.delay then rl.delay - time_since_last else 0
  (sleep, ⟨rl.delay, now + sleep⟩)

/-- What a client fetch operation does, seen from its caller: a normal
return, a propagated transport exception, or a propagated `TypeError`
from normalization. -/
inductive FetchRes (α : Type u) where
  | ok (v : α)
  | raisedTransport (e : Nat)
  | raisedTypeError

/-- `SemanticScholarClient.get_paper` (semantic_scholar_client.py) after
the URL is built: run the request through the retry executor; on a 200
response normalize its JSON body, otherwise return `None`.  An exception
re-raised by the executor, or a `TypeError` from normalization, is not
caught and propagates. -/
def get_paper (op : Nat → Outcome JDict) (max_retries : Nat)
    (backoff_factor : ℚ) : FetchRes (Option SemanticScholarPaper) :=
  match (handle_rate_limit_retry op max_retries backoff_factor).outcome with
  | RetryRes.raised e => FetchRes.raisedTransport e
  | RetryRes.ret none => FetchRes.ok none
  | RetryRes.ret (some (status, body)) =>
    if status = 200 then
      match SemanticScholarPaper.from_dict body with
      | some p => FetchRes.ok (some p)
      | none => FetchRes.raisedTypeError
    else FetchRes.ok none

/-- The slicing loop of `chunk_list`: one chunk `l[0:n]` per iteration,
recursing on the rest.  The recursion is fueled by the input length,
which bounds the iteration count of the Python `range` whenever
`n ≥ 1`; the source never calls `chunk_list` with `n = 0` (where
`range` would raise `ValueError`). -/
def chunkAux (n : Nat) : Nat → List α → List (List α)
  | 0, _ => []
  | fuel + 1, l =>
    if l.isEmpty then []
    else l.take n :: chunkAux n fuel (l.drop n)

/-- `chunk_list` (utils.py):
`[lst[i:i + n] for i in range(0, len(lst), n)]`. -/
def chunk_list (l : List α) (n : Nat) : List (List α) :=
  chunkAux n l.length l

/-- `Config.BATCH_SIZE` (config.py). -/
def BATCH_SIZE : Nat := 500

/-- One slot of the array returned by the upstream batch endpoint:
`null` for a paper not found, or a JSON object. -/
inductive BatchEntry where
  | jnull
  | obj (fields : JDict)

/-- The inner loop of `get_paper_bulk` over one chunk's response array:
`if paper_data:` skips entries that are Python-falsy (`null` and the
empty object); each kept entry is normalized, and a normalization
`TypeError` (`none`) propagates. -/
def processBatchEntries : List BatchEntry → Option (List SemanticScholarPaper)
  | [] => some []
  | BatchEntry.jnull :: rest => processBatchEntries rest
  | BatchEntry.obj fields :: rest =>
    if fields.isEmpty then processBatchEntries rest
    else
      match SemanticScholarPaper.from_dict fields with
      | none => none
      | some p => (processBatchEntries rest).map (fun ps => p :: ps)

/-- The chunk loop of `get_paper_bulk`: one retry-executed request per
chunk, indexed in order; a 200 response contributes its kept entries, any
other executor outcome skips the chunk (`resp` gives the executor's
outcome for the chunk at each index).  `none` models a propagating
`TypeError`; a re-raised transport exception would also propagate, which
the theorems below do not rely on, so `resp` ranges over returned
results. -/
def bulkGo (resp : Nat → Option (Nat × List BatchEntry)) :
    List (List String) → Nat → Option (List SemanticScholarPaper)
  | [], _ => some []
  | _ :: rest, i =>
    match resp i with
    | some (status, body) =>
      if status = 200 then
        match processBatchEntries body with
        | none => none
        | some ps => (bulkGo resp rest (i + 1)).map (fun acc => ps ++ acc)
      else bulkGo resp rest (i + 1)
    | none => bulkGo resp rest (i + 1)

/-- `SemanticScholarClient.get_paper_bulk` (semantic_scholar_client.py):
split the identifiers into chunks of `BATCH_SIZE` and accumulate the
normalized records across chunks. -/
def get_paper_bulk (paper_ids : List String)
    (resp : Nat → Option (Nat × List BatchEntry)) :
    Option (List SemanticScholarPaper) :=
  bulkGo resp (chunk_list paper_ids BATCH_SIZE) 0

/-- Python `str` whitespace for `strip()` (ASCII range). -/
def pyWS (c : Char) : Bool :=
  c == ' ' || c == '\t' || c == '\n' || c == '\r' || c == '\x0b' || c == '\x0c'

/-- Python `str.strip()`: drop leading and trailing whitespace. -/
def pyStrip (s : String) : String :=
  String.mk (((s.data.dropWhile pyWS).reverse.dropWhile pyWS).reverse)

/-- `text.strip().replace('\n', ' ')` as applied to titles and
abstracts in `ArxivClient._parse_entry` (arxiv_client.py). -/
def collapseWS (s : String) : String :=
  (pyStrip s).replace "\n" " "

/-- A parsed XML element as `ElementTree` presents it: tag, attributes,
text (`none` models a Python `None` text) and child elements.  Namespace
resolution is elided: tags are stored already resolved (`"entry"`,
`"title"`, ...). -/
inductive XmlElem where
  | mk (tag : String) (attribs : List (String × String))
       (text : Option String) (children : List XmlElem)

def XmlElem.tag : XmlElem → String
  | XmlElem.mk t _ _ _ => t

def XmlElem.attribs : XmlElem → List (String × String)
  | XmlElem.mk _ a _ _ => a

def XmlElem.text : XmlElem → Option String
  | XmlElem.mk _ _ tx _ => tx

def XmlElem.children : XmlElem → List XmlElem
  | XmlElem.mk _ _ _ c => c

/-- `Element.find`: first direct child with the tag. -/
def XmlElem.find (e : XmlElem) (t : String) : Option XmlElem :=
  e.children.find? (fun c => c.tag == t)

/-- `Element.findall`: all direct children with the tag. -/
def XmlElem.findall (e : XmlElem) (t : String) : List XmlElem :=
  e.children.filter (fun c => c.tag == t)

/-- `Element.get`: attribute lookup, `none` when absent. -/
def XmlElem.attr (e : XmlElem) (k : String) : Option String :=
  e.attribs.lookup k

/-- The `ArxivPaper` dataclass (models.py).  `published_date` is held as
an optional string because `_parse_entry` stores Python `None` there when
a `<published>` element carries no text. -/
structure ArxivPaper where
  title : String
  authors : List String
  abstract : String
  arxiv_id : String
  published_date : Option String
  pdf_url : String
  categories : List String
deriving Repr, DecidableEq

/-- The author loop of `_parse_entry`: an `<author>` without a `<name>`
child is skipped; a `<name>` child without text raises (`none`). -/
def collectAuthors : List XmlElem → Option (List String)
  | [] => some []
  | a :: rest =>
    match a.find "name" with
    | none => collectAuthors rest
    | some nameEl =>
      match nameEl.text with
      | none => none
      | some s => (collectAuthors rest).map (fun ns => pyStrip s :: ns)

/-- The link loop of `_parse_entry`: href of the first link whose `type`
attribute is `application/pdf`, defaulting to the empty string. -/
def firstPdfLink : List XmlElem → String
  | [] => ""
  | l :: rest =>
    if l.attr "type" == some "application/pdf" then (l.attr "href").getD ""
    else firstPdfLink rest

/-- `id_url.split('/abs/')[-1]` guarded by `'/abs/' in id_url`, with the
identifier left empty otherwise. -/
def absSuffix (u : String) : String :=
  let parts := u.splitOn "/abs/"
  if 2 ≤ parts.length then parts.reverse.headD "" else ""

/-- `ArxivClient._parse_entry` (arxiv_client.py): extract the record
fields from one `<entry>` element; `none` models the catch-all handler
that drops an entry whose processing raises. -/
def parse_entry (entry : XmlElem) : Option ArxivPaper := do
  let title_text ←
    match entry.find "title" with
    | some t =>
      match t.text with
      | some s => some (collapseWS s)
      | none => none
    | none => some "Unknown Title"
  let authors ← collectAuthors (entry.findall "author")
  let abstract ←
    match entry.find "summary" with
    | some t =>
      match t.text with
      | some s => some (collapseWS s)
      | none => none
    | none => some ""
  let arxiv_id ←
    match entry.find "id" with
    | some idEl =>
      match idEl.text with
      | some u => some (absSuffix u)
      | none => none
    | none => some ""
  let published_date :=
    match entry.find "published" with
    | some p => p.text
    | none => some ""
  let pdf_url := firstPdfLink (entry.findall "link")
  let categories := (entry.findall "category").filterMap
    (fun c =>
      match c.attr "term" with
      | some t => if t = "" then none else some t
      | none => none)
  some ⟨title_text, authors, abstract, arxiv_id, published_date, pdf_url,
        categories⟩

/-- `ArxivClient._parse_arxiv_response` (arxiv_client.py).  The
standard-library document parser is abstracted: its outcome is the
`Option XmlElem` argument, `none` standing for a raised `ParseError`,
which the source catches and converts to `None`. -/
def parse_arxiv_response (doc : Option XmlElem) : Option ArxivPaper :=
  match doc with
  | none => none
  | some root =>
    match root.find "entry" with
    | none => none
    | some entry => parse_entry entry

/-- `ArxivClient._parse_arxiv_search_response` (arxiv_client.py), with
the document parser abstracted as in `parse_arxiv_response`: a
`ParseError` leaves the accumulated list empty. -/
def parse_arxiv_search_response (doc : Option XmlElem) : List ArxivPaper :=
  match doc with
  | none => []
  | some root => (root.findall "entry").filterMap parse_entry

/-! ## Retry executor -/

/-- One-step unfolding of the `retryGo` loop body. -/
theorem retryGo_succ (op : Nat → Outcome β) (r : Nat) (q : ℚ) (a f : Nat) :
    retryGo op r q a (f + 1) =
      match op a with
      | Outcome.resp status body =>
        if status = 200 then ⟨RetryRes.ret (some (status, body)), 1, []⟩
        else if status = 429 then
          if a < r then
            let rr := retryGo op r q (a + 1) f
            ⟨rr.outcome, rr.calls + 1, q ^ a :: rr.sleeps⟩
          else ⟨RetryRes.ret (some (status, body)), 1, []⟩
        else ⟨RetryRes.ret (some (status, body)), 1, []⟩
      | Outcome.exc e =>
        if a < r then
          let rr := retryGo op r q (a + 1) f
          ⟨rr.outcome, rr.calls + 1, q ^ a :: rr.sleeps⟩
        else ⟨RetryRes.raised e, 1, []⟩ := rfl

/-- Loop invariant for an operation answering 429 on every invocation:
from attempt `a` with `fuel` further iterations available, the loop
makes `fuel + 1` calls, sleeps `backoff ^ i` for `i = a, ..., a + fuel - 1`,
and returns the final 429 response. -/
theorem retryGo_always_429 (r : Nat) (q : ℚ) (body : Nat → β) :
    ∀ (fuel a : Nat), a + (fuel + 1) = r + 1 →
    retryGo (fun i => Outcome.resp 429 (body i)) r q a (fuel + 1) =
      ⟨RetryRes.ret (some (429, body r)), fuel + 1,
       (List.range' a fuel).map (fun i => q ^ i)⟩ := by
  intro fuel
  induction fuel with
  | zero =>
    intro a ha
    have h : a = r := by omega
    subst h
    simp [retryGo]
  | succ f ih =>
    intro a ha
    have hlt : a < r := by omega
    have h2 := ih (a + 1) (by omega)
    rw [retryGo_succ]
    simp [hlt, h2, List.range'_succ]

/-- Claim C3: for every `max_retries = r` and operation answering HTTP
429 on every invocation, `handle_rate_limit_retry` invokes the operation
exactly `r + 1` times, returns the final 429 response as-is (so it never
raises), sleeping `backoff ^ i` before retry `i + 1`. -/
theorem handle_retry_always_429 (r : Nat) (q : ℚ) (body : Nat → β) :
    handle_rate_limit_retry (fun i => Outcome.resp 429 (body i)) r q =
      ⟨RetryRes.ret (some (429, body r)), r + 1,
       (List.range r).map (fun i => q ^ i)⟩ := by
  have h := retryGo_always_429 r q body r 0 (by omega)
  simpa [handle_rate_limit_retry, List.range_eq_range'] using h

/-- Loop invariant for an operation answering 429 on the first `k`
invocations and 200 on invocation `k`: from attempt `a ≤ k` the loop
makes `k + 1 - a` further calls and returns the 200 response. -/
theorem retryGo_429_then_200 (k r : Nat) (q : ℚ) (body : Nat → β)
    (hkr : k ≤ r) :
    ∀ (fuel a : Nat), a + fuel = r + 1 → a ≤ k →
    retryGo (fun i => if i < k then Outcome.resp 429 (body i)
                      else Outcome.resp 200 (body i)) r q a fuel =
      ⟨RetryRes.ret (some (200, body k)), k + 1 - a,
       (List.range' a (k - a)).map (fun i => q ^ i)⟩ := by
  intro fuel
  induction fuel with
  | zero =>
    intro a ha hak
    omega
  | succ f ih =>
    intro a ha hak
    rcases Nat.lt_or_ge a k with hck | hck
    · have hlt : a < r := by omega
      have h2 := ih (a + 1) (by omega) (by omega)
      have hk1 : k + 1 - a = (k + 1 - (a + 1)) + 1 := by omega
      have hk2 : k - a = (k - (a + 1)) + 1 := by omega
      rw [retryGo_succ]
      simp only [hck, if_true]
      rw [hk1, hk2]
      simp [hlt, h2, List.range'_succ, Nat.ne_of_lt hck]
    · have hke : a = k := by omega
      subst hke
      rw [retryGo_succ]
      simp

/-- The list-sum of the backoff sleeps written as a finite sum. -/
theorem sum_map_range_pow (q : ℚ) (k : Nat) :
    ((List.range k).map (fun i => q ^ i)).sum = ∑ i ∈ Finset.range k, q ^ i := by
  induction k with
  | zero => simp
  | succ j ihj => simp [List.range_succ, Finset.sum_range_succ, ihj]

/-- Claim C4: for every `k` and operation answering 429 on its first `k`
invocations then 200, with `max_retries ≥ k`, the executor returns the
200 response after exactly `k + 1` invocations; the backoff sleeps are
`backoff ^ 0, ..., backoff ^ (k-1)`, summing to `∑ i < k, backoff ^ i`,
and the first one equals `backoff ^ 0 = 1` regardless of the factor. -/
theorem handle_retry_429_then_200 (k r : Nat) (q : ℚ) (body : Nat → β)
    (hkr : k ≤ r) :
    handle_rate_limit_retry
        (fun i => if i < k then Outcome.resp 429 (body i)
                  else Outcome.resp 200 (body i)) r q =
      ⟨RetryRes.ret (some (200, body k)), k + 1,
       (List.range k).map (fun i => q ^ i)⟩
    ∧ ((List.range k).map (fun i => q ^ i)).sum = ∑ i ∈ Finset.range k, q ^ i
    ∧ (0 < k → ((List.range k).map (fun i => q ^ i)).headD 0 = 1) := by
  refine ⟨?_, ?_, ?_⟩
  · have h := retryGo_429_then_200 k r q body hkr (r + 1) 0 (by omega) (by omega)
    simpa [handle_rate_limit_retry, List.range_eq_range'] using h
  · exact sum_map_range_pow q k
  · intro hk
    obtain ⟨j, rfl⟩ := Nat.exists_eq_succ_of_ne_zero (Nat.pos_iff_ne_zero.mp hk)
    simp [List.range_succ_eq_map]

/-- Witness for `handle_retry_429_then_200` at `k = 2`, `r = 3`,
`backoff = 2`. -/
theorem handle_retry_429_then_200_witness :
    (handle_rate_limit_retry
        (fun i => if i < 2 then Outcome.resp 429 (0 : Nat)
                  else Outcome.resp 200 (0 : Nat)) 3 2 =
      ⟨RetryRes.ret (some (200, 0)), 2 + 1,
       (List.range 2).map (fun i => (2 : ℚ) ^ i)⟩)
    ∧ ((List.range 2).map (fun i => (2 : ℚ) ^ i)).headD 0 = 1 :=
  ⟨(handle_retry_429_then_200 2 3 2 (fun _ => 0) (by norm_num)).1,
   (handle_retry_429_then_200 2 3 2 (fun _ => 0) (by norm_num)).2.2 (by norm_num)⟩

/-! ## Client error paths -/

/-- Loop invariant for an operation that raises on every invocation: the
loop re-raises the exception of the final attempt. -/
theorem retryGo_always_exc (r : Nat) (q : ℚ) (e : Nat → Nat) :
    ∀ (fuel a : Nat), a + (fuel + 1) = r + 1 →
    retryGo (β := β) (fun i => Outcome.exc (e i)) r q a (fuel + 1) =
      ⟨RetryRes.raised (e r), fuel + 1,
       (List.range' a fuel).map (fun i => q ^ i)⟩ := by
  intro fuel
  induction fuel with
  | zero =>
    intro a ha
    have h : a = r := by omega
    subst h
    simp [retryGo]
  | succ f ih =>
    intro a ha
    have hlt : a < r := by omega
    have h2 := ih (a + 1) (by omega)
    rw [retryGo_succ]
    simp [hlt, h2, List.range'_succ]

/-- For an operation that returns a response on every invocation, the
loop always terminates with a returned response from some attempt. -/
theorem retryGo_resp_returns (r : Nat) (q : ℚ) (s : Nat → Nat) (b : Nat → β) :
    ∀ (fuel a : Nat), a + (fuel + 1) = r + 1 → ∃ j,
    (retryGo (fun i => Outcome.resp (s i) (b i)) r q a (fuel + 1)).outcome =
      RetryRes.ret (some (s j, b j)) := by
  intro fuel
  induction fuel with
  | zero =>
    intro a ha
    have hnlt : ¬ a < r := by omega
    refine ⟨a, ?_⟩
    rw [retryGo_succ]
    by_cases h200 : s a = 200
    · simp [h200]
    · by_cases h429 : s a = 429
      · simp [h200, h429, hnlt]
      · simp [h200, h429]
  | succ f ih =>
    intro a ha
    have hlt : a < r := by omega
    by_cases h200 : s a = 200
    · refine ⟨a, ?_⟩
      rw [retryGo_succ]
      simp [h200]
    · by_cases h429 : s a = 429
      · obtain ⟨j, hj⟩ := ih (a + 1) (by omega)
        refine ⟨j, ?_⟩
        rw [retryGo_succ]
        simp [h200, h429, hlt, hj]
      · refine ⟨a, ?_⟩
        rw [retryGo_succ]
        simp [h200, h429]

/-- Claim C1 (amended): when every attempt of the underlying request
returns a non-200 response, `get_paper` returns `None` and nothing is
raised; but when every attempt raises a transport exception, the retry
executor re-raises the final attempt's exception and it propagates out
of `get_paper` to the caller. -/
theorem get_paper_error_paths (r : Nat) (q : ℚ) (s : Nat → Nat)
    (b : Nat → JDict) (e : Nat → Nat) :
    ((∀ i, s i ≠ 200) →
      get_paper (fun i => Outcome.resp (s i) (b i)) r q = FetchRes.ok none)
    ∧ get_paper (fun i => Outcome.exc (e i)) r q =
        FetchRes.raisedTransport (e r) := by
  constructor
  · intro hs
    obtain ⟨j, hj⟩ := retryGo_resp_returns r q s b r 0 (by omega)
    unfold get_paper handle_rate_limit_retry
    rw [hj]
    simp [hs j]
  · have h := retryGo_always_exc (β := JDict) r q e r 0 (by omega)
    unfold get_paper handle_rate_limit_retry
    rw [h]

/-- Witness for `get_paper_error_paths` at `r = 1`: an operation always
answering 404 yields `ok none`; an operation always raising exception
code `i + 5` ends with exception code 6 propagating. -/
theorem get_paper_error_paths_witness :
    get_paper (fun _ => Outcome.resp 404 ([] : JDict)) 1 2 = FetchRes.ok none
    ∧ get_paper (fun i => Outcome.exc (i + 5)) 1 2 =
        FetchRes.raisedTransport 6 :=
  ⟨(get_paper_error_paths 1 2 (fun _ => 404) (fun _ => []) (fun i => i + 5)).1
      (fun _ => by norm_num),
   (get_paper_error_paths 1 2 (fun _ => 404) (fun _ => []) (fun i => i + 5)).2⟩

/-- Claim C1 counterexample: with an operation raising a transport
exception on every attempt, `get_paper` propagates the exception to its
caller instead of returning the absent result `None`. -/
theorem get_paper_exception_propagates :
    get_paper (fun _ => Outcome.exc 7) 0 1 = FetchRes.raisedTransport 7
    ∧ get_paper (fun _ => Outcome.exc 7) 0 1 ≠ FetchRes.ok none := by
  constructor
  · rfl
  · intro h
    rw [show get_paper (fun _ => Outcome.exc 7) 0 1 =
          FetchRes.raisedTransport 7 from rfl] at h
    exact FetchRes.noConfusion h

/-! ## JSON normalization -/

/-- Appending one binding shadows earlier bindings of the same key. -/
theorem dget_append_single (d : JDict) (k0 : String) (v0 : JVal) (k : String) :
    dget (d ++ [(k0, v0)]) k = if k0 = k then some v0 else dget d k := by
  induction d with
  | nil => simp [dget]
  | cons kv rest ih =>
    obtain ⟨k', v⟩ := kv
    show (match dget (rest ++ [(k0, v0)]) k with
          | some w => some w
          | none => if k' = k then some v else none) =
         if k0 = k then some v0 else dget ((k', v) :: rest) k
    rw [ih]
    by_cases h : k0 = k
    · rw [if_pos h, if_pos h]
    · rw [if_neg h, if_neg h]
      rfl

/-- Python `key in dict` agrees with lookup success. -/
theorem dmem_eq_isSome (d : JDict) (k : String) :
    dmem d k = (dget d k).isSome := by
  induction d with
  | nil => rfl
  | cons kv rest ih =>
    obtain ⟨k', v⟩ := kv
    have hd : dmem ((k', v) :: rest) k = (decide (k' = k) || dmem rest k) := by
      simp [dmem]
    rw [hd, ih]
    cases hr : dget rest k with
    | some w => simp [dget, hr]
    | none =>
      by_cases h : k' = k
      · simp [dget, hr, h]
      · simp [dget, hr, h]

/-- The defaulting loop leaves keys it never binds untouched. -/
theorem dget_loop_no_key (k : String) :
    ∀ (defs d : JDict), (∀ kv ∈ defs, kv.1 ≠ k) →
    dget (addDefaultsLoop d defs) k = dget d k := by
  intro defs
  induction defs with
  | nil => intro d _; rfl
  | cons kv rest ih =>
    obtain ⟨k0, v0⟩ := kv
    intro d hk
    have hkv : k0 ≠ k := hk (k0, v0) (List.mem_cons_self _ rest)
    have hrest : ∀ kv' ∈ rest, kv'.1 ≠ k :=
      fun kv' h => hk kv' (List.mem_cons_of_mem _ h)
    rw [addDefaultsLoop, ih _ hrest]
    by_cases hm : dmem d k0
    · simp [hm]
    · simp [hm, dget_append_single, hkv]

/-- The defaulting loop never overwrites an existing binding. -/
theorem dget_loop_some (k : String) (w : JVal) :
    ∀ (defs d : JDict), dget d k = some w →
    dget (addDefaultsLoop d defs) k = some w := by
  intro defs
  induction defs with
  | nil => intro d h; exact h
  | cons kv rest ih =>
    obtain ⟨k0, v0⟩ := kv
    intro d h
    rw [addDefaultsLoop]
    by_cases hm : dmem d k0
    · simp only [hm, if_pos]
      exact ih d h
    · simp only [hm, if_neg, not_false_iff, Bool.false_eq_true]
      apply ih
      rw [dget_append_single]
      by_cases hkk : k0 = k
      · rw [dmem_eq_isSome, hkk, h] at hm
        simp at hm
      · simp [hkk, h]

/-- The defaulting loop fills an absent key with its default. -/
theorem dget_loop_default (k : String) (v : JVal) :
    ∀ (defs d : JDict), (defs.map Prod.fst).Nodup → ((k, v) ∈ defs) →
    dget d k = none → dget (addDefaultsLoop d defs) k = some v := by
  intro defs
  induction defs with
  | nil => intro d _ hmem; exact absurd hmem (List.not_mem_nil _)
  | cons kv rest ih =>
    obtain ⟨k0, v0⟩ := kv
    intro d hnd hmem hnone
    rw [List.map_cons] at hnd
    have hnd1 : k0 ∉ rest.map Prod.fst := (List.nodup_cons.mp hnd).1
    have hnd2 : (rest.map Prod.fst).Nodup := (List.nodup_cons.mp hnd).2
    rcases List.mem_cons.mp hmem with heq | hrest
    · have hk1 : k0 = k := congrArg Prod.fst heq.symm
      have hv1 : v0 = v := congrArg Prod.snd heq.symm
      have hm : dmem d k0 = false := by
        rw [dmem_eq_isSome, hk1, hnone]; rfl
      rw [addDefaultsLoop, hm]
      simp only [Bool.false_eq_true, if_neg, not_false_iff]
      have hnok : ∀ kv' ∈ rest, kv'.1 ≠ k := by
        intro kv' h hcontra
        exact hnd1 (hk1 ▸ hcontra ▸ List.mem_map_of_mem Prod.fst h)
      rw [dget_loop_no_key k rest _ hnok, dget_append_single]
      simp [hk1, hv1]
    · have hk1 : k0 ≠ k := by
        intro hcontra
        exact hnd1 (hcontra ▸ List.mem_map_of_mem Prod.fst hrest)
      rw [addDefaultsLoop]
      by_cases hm : dmem d k0
      · simp only [hm, if_pos]
        exact ih d hnd2 hrest hnone
      · simp only [hm, if_neg, not_false_iff, Bool.false_eq_true]
        apply ih _ hnd2 hrest
        rw [dget_append_single]
        simp [hk1, hnone]

/-- Every binding after the defaulting loop comes from the dict or from
the defaults table. -/
theorem mem_addDefaultsLoop :
    ∀ (defs d : JDict) (kv : String × JVal),
    kv ∈ addDefaultsLoop d defs → kv ∈ d ∨ kv ∈ defs := by
  intro defs
  induction defs with
  | nil => intro d kv h; exact Or.inl h
  | cons kv0 rest ih =>
    intro d kv h
    rw [addDefaultsLoop] at h
    rcases ih _ kv h with hmem | hmem
    · by_cases hm : dmem d kv0.1
      · rw [if_pos hm] at hmem
        exact Or.inl hmem
      · rw [if_neg hm] at hmem
        rcases List.mem_append.mp hmem with h1 | h1
        · exact Or.inl h1
        · simp only [List.mem_singleton] at h1
          exact Or.inr (h1 ▸ List.mem_cons_self kv0 rest)
    · exact Or.inr (List.mem_cons_of_mem kv0 hmem)

/-- Every key kept by the paper key-conversion names a model field. -/
theorem convertPaperData_valid (d : JDict) :
    ∀ kv ∈ convertPaperData d, paper_valid_fields.contains kv.1 = true := by
  induction d with
  | nil => intro kv h; exact absurd h (List.not_mem_nil _)
  | cons kv0 rest ih =>
    intro kv h
    rw [convertPaperData] at h
    by_cases hc : paper_valid_fields.contains (renameKey paper_field_mapping kv0.1)
    · rw [if_pos hc] at h
      rcases List.mem_cons.mp h with heq | hmem
      · rw [heq]; exact hc
      · exact ih kv hmem
    · rw [if_neg hc] at h
      exact ih kv h

/-- The required constructor parameters the `defaults` table does not
cover: a payload binding none of these cannot be normalized. -/
def paper_nondefaulted_required : List String :=
  ["paper_id", "title", "abstract", "year", "venue", "url", "external_ids",
   "publication_types", "publication_date", "journal"]

/-- Claim C2 counterexample: normalization does not succeed on every
payload — on the empty payload `from_dict` raises a `TypeError`
(modelled as `none`) instead of producing a defaulted record. -/
theorem from_dict_empty_payload_raises :
    SemanticScholarPaper.from_dict [] = none := rfl

/-- Claim C2 (amended): `from_dict` defaults exactly `citation_count`,
`reference_count`, `influential_citation_count` (to 0), `authors` (to the
empty list) and `arxiv_id`, `doi`, `corpus_id` (to `null`) when absent;
it succeeds exactly on payloads that, after renaming and filtering, bind
the other ten required fields, and raises `TypeError` when any of those
ten is missing. -/
theorem from_dict_partial_defaults (d : JDict) :
    ((∀ k ∈ paper_nondefaulted_required,
        (dget (convertPaperData d) k).isSome = true) →
      ∃ p, SemanticScholarPaper.from_dict d = some p
        ∧ (dget (convertPaperData d) "citation_count" = none →
            p.citation_count = JVal.jnum 0)
        ∧ (dget (convertPaperData d) "reference_count" = none →
            p.reference_count = JVal.jnum 0)
        ∧ (dget (convertPaperData d) "influential_citation_count" = none →
            p.influential_citation_count = JVal.jnum 0)
        ∧ (dget (convertPaperData d) "authors" = none →
            p.authors = JVal.jarr [])
        ∧ (dget (convertPaperData d) "arxiv_id" = none →
            p.arxiv_id = JVal.jnull)
        ∧ (dget (convertPaperData d) "doi" = none → p.doi = JVal.jnull)
        ∧ (dget (convertPaperData d) "corpus_id" = none →
            p.corpus_id = JVal.jnull))
    ∧ (∀ k ∈ paper_nondefaulted_required,
        dget (convertPaperData d) k = none →
        SemanticScholarPaper.from_dict d = none) := by
  have hnd : (paper_defaults.map Prod.fst).Nodup := by decide
  have hvalid : ((addPaperDefaults (convertPaperData d)).all
      fun p => paper_valid_fields.contains p.1) = true := by
    rw [List.all_eq_true]
    intro kv hkv
    rw [addPaperDefaults] at hkv
    rcases mem_addDefaultsLoop paper_defaults _ kv hkv with hmem | hmem
    · simpa using convertPaperData_valid d kv hmem
    · have hpd : ∀ kv' ∈ paper_defaults,
          paper_valid_fields.contains kv'.1 = true := by decide
      simpa using hpd kv hmem
  have hsome7 : ∀ (k : String) (v : JVal), ((k, v) ∈ paper_defaults) →
      (dget (addPaperDefaults (convertPaperData d)) k).isSome = true := by
    intro k v hmem
    rw [addPaperDefaults]
    cases hc : dget (convertPaperData d) k with
    | some w => rw [dget_loop_some k w paper_defaults _ hc]; rfl
    | none => rw [dget_loop_default k v paper_defaults _ hnd hmem hc]; rfl
  have h10 : ∀ k : String, (∀ kv ∈ paper_defaults, kv.1 ≠ k) →
      dget (addPaperDefaults (convertPaperData d)) k =
        dget (convertPaperData d) k := by
    intro k hnok
    rw [addPaperDefaults]
    exact dget_loop_no_key k paper_defaults _ hnok
  constructor
  · intro h
    have hall17 : (paper_required_fields.all
        fun k => (dget (addPaperDefaults (convertPaperData d)) k).isSome) = true := by
      rw [List.all_eq_true]
      intro k hk
      simp only [paper_required_fields, List.mem_cons, List.not_mem_nil,
        or_false] at hk
      rcases hk with rfl|rfl|rfl|rfl|rfl|rfl|rfl|rfl|rfl|rfl|rfl|rfl|rfl|rfl|rfl|rfl|rfl
      · rw [h10 "paper_id" (by decide)]
        exact h _ (by simp [paper_nondefaulted_required])
      · rw [h10 "title" (by decide)]
        exact h _ (by simp [paper_nondefaulted_required])
      · rw [h10 "abstract" (by decide)]
        exact h _ (by simp [paper_nondefaulted_required])
      · exact hsome7 "authors" (JVal.jarr []) (by simp [paper_defaults])
      · rw [h10 "year" (by decide)]
        exact h _ (by simp [paper_nondefaulted_required])
      · exact hsome7 "citation_count" (JVal.jnum 0) (by simp [paper_defaults])
      · exact hsome7 "reference_count" (JVal.jnum 0) (by simp [paper_defaults])
      · exact hsome7 "influential_citation_count" (JVal.jnum 0)
          (by simp [paper_defaults])
      · rw [h10 "venue" (by decide)]
        exact h _ (by simp [paper_nondefaulted_required])
      · rw [h10 "url" (by decide)]
        exact h _ (by simp [paper_nondefaulted_required])
      · exact hsome7 "arxiv_id" JVal.jnull (by simp [paper_defaults])
      · exact hsome7 "doi" JVal.jnull (by simp [paper_defaults])
      · exact hsome7 "corpus_id" JVal.jnull (by simp [paper_defaults])
      · rw [h10 "external_ids" (by decide)]
        exact h _ (by simp [paper_nondefaulted_required])
      · rw [h10 "publication_types" (by decide)]
        exact h _ (by simp [paper_nondefaulted_required])
      · rw [h10 "publication_date" (by decide)]
        exact h _ (by simp [paper_nondefaulted_required])
      · rw [h10 "journal" (by decide)]
        exact h _ (by simp [paper_nondefaulted_required])
    refine ⟨⟨(dget (addPaperDefaults (convertPaperData d)) "paper_id").getD JVal.jnull,
             (dget (addPaperDefaults (convertPaperData d)) "title").getD JVal.jnull,
             (dget (addPaperDefaults (convertPaperData d)) "abstract").getD JVal.jnull,
             (dget (addPaperDefaults (convertPaperData d)) "authors").getD JVal.jnull,
             (dget (addPaperDefaults (convertPaperData d)) "year").getD JVal.jnull,
             (dget (addPaperDefaults (convertPaperData d)) "citation_count").getD JVal.jnull,
             (dget (addPaperDefaults (convertPaperData d)) "reference_count").getD JVal.jnull,
             (dget (addPaperDefaults (convertPaperData d)) "influential_citation_count").getD JVal.jnull,
             (dget (addPaperDefaults (convertPaperData d)) "venue").getD JVal.jnull,
             (dget (addPaperDefaults (convertPaperData d)) "url").getD JVal.jnull,
             (dget (addPaperDefaults (convertPaperData d)) "arxiv_id").getD JVal.jnull,
             (dget (addPaperDefaults (convertPaperData d)) "doi").getD JVal.jnull,
             (dget (addPaperDefaults (convertPaperData d)) "corpus_id").getD JVal.jnull,
             (dget (addPaperDefaults (convertPaperData d)) "external_ids").getD JVal.jnull,
             (dget (addPaperDefaults (convertPaperData d)) "publication_types").getD JVal.jnull,
             (dget (addPaperDefaults (convertPaperData d)) "publication_date").getD JVal.jnull,
             (dget (addPaperDefaults (convertPaperData d)) "journal").getD JVal.jnull,
             (dget (addPaperDefaults (convertPaperData d)) "citations").getD JVal.jnull,
             (dget (addPaperDefaults (convertPaperData d)) "references").getD JVal.jnull,
             (dget (addPaperDefaults (convertPaperData d)) "embedding").getD JVal.jnull,
             (dget (addPaperDefaults (convertPaperData d)) "tldr").getD JVal.jnull⟩,
           ?_, ?_, ?_, ?_, ?_, ?_, ?_, ?_⟩
    · unfold SemanticScholarPaper.from_dict constructPaper
      rw [hvalid, hall17]
      rfl
    · intro hcc
      have hD := dget_loop_default "citation_count" (JVal.jnum 0)
        paper_defaults _ hnd (by simp [paper_defaults]) hcc
      rw [addPaperDefaults, hD]
      rfl
    · intro hcc
      have hD := dget_loop_default "reference_count" (JVal.jnum 0)
        paper_defaults _ hnd (by simp [paper_defaults]) hcc
      rw [addPaperDefaults, hD]
      rfl
    · intro hcc
      have hD := dget_loop_default "influential_citation_count" (JVal.jnum 0)
        paper_defaults _ hnd (by simp [paper_defaults]) hcc
      rw [addPaperDefaults, hD]
      rfl
    · intro hcc
      have hD := dget_loop_default "authors" (JVal.jarr [])
        paper_defaults _ hnd (by simp [paper_defaults]) hcc
      rw [addPaperDefaults, hD]
      rfl
    · intro hcc
      have hD := dget_loop_default "arxiv_id" JVal.jnull
        paper_defaults _ hnd (by simp [paper_defaults]) hcc
      rw [addPaperDefaults, hD]
      rfl
    · intro hcc
      have hD := dget_loop_default "doi" JVal.jnull
        paper_defaults _ hnd (by simp [paper_defaults]) hcc
      rw [addPaperDefaults, hD]
      rfl
    · intro hcc
      have hD := dget_loop_default "corpus_id" JVal.jnull
        paper_defaults _ hnd (by simp [paper_defaults]) hcc
      rw [addPaperDefaults, hD]
      rfl
  · intro k hk hnone
    have hDn : dget (addPaperDefaults (convertPaperData d)) k = none := by
      rw [h10 k ?_, hnone]
      simp only [paper_nondefaulted_required, List.mem_cons,
        List.not_mem_nil, or_false] at hk
      rcases hk with rfl|rfl|rfl|rfl|rfl|rfl|rfl|rfl|rfl|rfl <;> decide
    have hmemreq : k ∈ paper_required_fields := by
      simp only [paper_nondefaulted_required, List.mem_cons,
        List.not_mem_nil, or_false] at hk
      rcases hk with rfl|rfl|rfl|rfl|rfl|rfl|rfl|rfl|rfl|rfl <;>
        simp [paper_required_fields]
    have hall : (paper_required_fields.all
        fun k' => (dget (addPaperDefaults (convertPaperData d)) k').isSome) = false := by
      rw [List.all_eq_false]
      exact ⟨k, hmemreq, by simp [hDn]⟩
    unfold SemanticScholarPaper.from_dict constructPaper
    rw [hall]
    simp

/-- Witness for `from_dict_partial_defaults`: a payload binding the ten
non-defaulted fields normalizes with `citation_count` defaulted to 0,
while a payload binding only `title` raises. -/
theorem from_dict_partial_defaults_witness :
    (∃ p, SemanticScholarPaper.from_dict
        [("paperId", JVal.jstr "X"), ("title", JVal.jnull),
         ("abstract", JVal.jnull), ("year", JVal.jnull),
         ("venue", JVal.jnull), ("url", JVal.jnull),
         ("externalIds", JVal.jnull), ("publicationTypes", JVal.jnull),
         ("publicationDate", JVal.jnull), ("journal", JVal.jnull)] = some p
      ∧ p.citation_count = JVal.jnum 0)
    ∧ SemanticScholarPaper.from_dict [("title", JVal.jnull)] = none := by
  constructor
  · obtain ⟨p, hp, hcc, _⟩ :=
      (from_dict_partial_defaults
        [("paperId", JVal.jstr "X"), ("title", JVal.jnull),
         ("abstract", JVal.jnull), ("year", JVal.jnull),
         ("venue", JVal.jnull), ("url", JVal.jnull),
         ("externalIds", JVal.jnull), ("publicationTypes", JVal.jnull),
         ("publicationDate", JVal.jnull), ("journal", JVal.jnull)]).1
        (by decide)
    exact ⟨p, hp, hcc rfl⟩
  · exact (from_dict_partial_defaults [("title", JVal.jnull)]).2
      "paper_id" (by simp [paper_nondefaulted_required]) rfl

/-- Claim C10: `AuthorInfo.from_dict` renames but never filters, so any
key whose renamed form is not an `AuthorInfo` field makes the constructor
call raise `TypeError`; `SemanticScholarPaper.from_dict`, by contrast,
silently drops such a key. -/
theorem author_from_dict_unknown_key_raises (d rest : JDict) (k : String)
    (v : JVal) :
    ((k, v) ∈ d →
      author_valid_fields.contains (renameKey author_field_mapping k) = false →
      AuthorInfo.from_dict d = none)
    ∧ (paper_valid_fields.contains (renameKey paper_field_mapping k) = false →
      SemanticScholarPaper.from_dict ((k, v) :: rest) =
        SemanticScholarPaper.from_dict rest) := by
  constructor
  · intro hmem hbad
    have hmem2 : (renameKey author_field_mapping k, v) ∈ convertAuthorData d := by
      unfold convertAuthorData
      exact List.mem_map_of_mem _ hmem
    have hall : ((convertAuthorData d).all
        fun p => author_valid_fields.contains p.1) = false := by
      rw [List.all_eq_false]
      exact ⟨_, hmem2, by simpa using hbad⟩
    unfold AuthorInfo.from_dict constructAuthor
    rw [hall]
    simp
  · intro hbad
    have hconv : convertPaperData ((k, v) :: rest) = convertPaperData rest := by
      have hmemf : renameKey paper_field_mapping k ∉ paper_valid_fields := by
        simpa using hbad
      rw [convertPaperData]
      simp [hmemf]
    unfold SemanticScholarPaper.from_dict
    rw [hconv]

/-- Witness for `author_from_dict_unknown_key_raises` at the key
`"junk"`. -/
theorem author_from_dict_unknown_key_raises_witness :
    AuthorInfo.from_dict [("junk", JVal.jnull)] = none
    ∧ SemanticScholarPaper.from_dict [("junk", JVal.jnull)] =
        SemanticScholarPaper.from_dict [] :=
  ⟨(author_from_dict_unknown_key_raises [("junk", JVal.jnull)] [] "junk"
      JVal.jnull).1 (by simp) (by decide),
   (author_from_dict_unknown_key_raises [("junk", JVal.jnull)] [] "junk"
      JVal.jnull).2 (by decide)⟩

set_option maxHeartbeats 1000000 in
/-- Key conversion fixes the canonical serialized form: no canonical
field name occurs in the rename table, and every one names a field. -/
theorem convertPaperData_to_dict (p : SemanticScholarPaper) :
    convertPaperData (SemanticScholarPaper.to_dict p) =
      SemanticScholarPaper.to_dict p := rfl

set_option maxHeartbeats 1000000 in
/-- Defaulting leaves the canonical serialized form unchanged: all seven
defaultable keys are already bound. -/
theorem addPaperDefaults_to_dict (p : SemanticScholarPaper) :
    addPaperDefaults (SemanticScholarPaper.to_dict p) =
      SemanticScholarPaper.to_dict p := rfl

set_option maxHeartbeats 1000000 in
/-- Construction from the canonical serialized form recovers the record. -/
theorem constructPaper_to_dict (p : SemanticScholarPaper) :
    constructPaper (SemanticScholarPaper.to_dict p) = some p := rfl

/-- Claim C7: normalizing a payload carrying `paperId = "X"` and
`citationCount = 5` yields identifier `"X"` and citation count 5, and
normalization is a left inverse of serialization:
`from_dict (to_dict p) = p` for every record `p`. -/
theorem normalize_roundtrip :
    ((SemanticScholarPaper.from_dict
        [("paperId", JVal.jstr "X"), ("citationCount", JVal.jnum 5),
         ("title", JVal.jnull), ("abstract", JVal.jnull),
         ("year", JVal.jnull), ("venue", JVal.jnull), ("url", JVal.jnull),
         ("externalIds", JVal.jnull), ("publicationTypes", JVal.jnull),
         ("publicationDate", JVal.jnull), ("journal", JVal.jnull)]).map
      (fun p => (p.paper_id, p.citation_count)) =
        some (JVal.jstr "X", JVal.jnum 5))
    ∧ ∀ p : SemanticScholarPaper,
        SemanticScholarPaper.from_dict (SemanticScholarPaper.to_dict p) =
          some p := by
  constructor
  · rfl
  · intro p
    unfold SemanticScholarPaper.from_dict
    rw [convertPaperData_to_dict, addPaperDefaults_to_dict,
      constructPaper_to_dict]

/-! ## Rate limiter -/

/-- Unfolding of `RateLimiter.wait`. -/
theorem RateLimiter.wait_eq (rl : RateLimiter) (now : ℚ) :
    rl.wait now =
      (if now - rl.last_request_time < rl.delay
         then rl.delay - (now - rl.last_request_time) else 0,
       ⟨rl.delay,
        now + (if now - rl.last_request_time < rl.delay
                 then rl.delay - (now - rl.last_request_time) else 0)⟩) := rfl

/-- Claim C5: a `wait` call entered at time `t` (no earlier than the
stored timestamp) returns at `t` plus its sleep, which is at least
`delay` after the previous call's return (the stored timestamp), and the
new timestamp is that return time; a fresh instance's first call does not
sleep for any clock reading of at least `delay` (the stored epoch
timestamp starts at 0, so this covers every real clock reading). -/
theorem rate_limiter_min_spacing (rl : RateLimiter) (t d t0 : ℚ) :
    (rl.last_request_time ≤ t →
      rl.delay ≤ t + (rl.wait t).1 - rl.last_request_time
      ∧ ((rl.wait t).2.last_request_time = t + (rl.wait t).1))
    ∧ (d ≤ t0 → ((⟨d, 0⟩ : RateLimiter).wait t0).1 = 0) := by
  constructor
  · intro ht
    rw [RateLimiter.wait_eq]
    by_cases hc : t - rl.last_request_time < rl.delay
    · rw [if_pos hc]
      constructor
      · simp only []
        linarith
      · rfl
    · rw [if_neg hc]
      constructor
      · simp only []
        linarith [not_lt.mp hc]
      · rfl
  · intro hd
    rw [RateLimiter.wait_eq]
    have hc : ¬ t0 < d := not_lt.mpr hd
    simp [hc]

/-- Witness for `rate_limiter_min_spacing` at `delay = 1`,
`last_request_time = 10`, `t = 21/2`, and a fresh limiter polled at
`t0 = 5`. -/
theorem rate_limiter_min_spacing_witness :
    ((1 : ℚ) ≤ 21/2 + ((⟨1, 10⟩ : RateLimiter).wait (21/2)).1 - 10
      ∧ (((⟨1, 10⟩ : RateLimiter).wait (21/2)).2.last_request_time =
          21/2 + ((⟨1, 10⟩ : RateLimiter).wait (21/2)).1))
    ∧ ((⟨1, 0⟩ : RateLimiter).wait 5).1 = 0 :=
  ⟨(rate_limiter_min_spacing ⟨1, 10⟩ (21/2) 1 5).1 (by norm_num),
   (rate_limiter_min_spacing ⟨1, 10⟩ (21/2) 1 5).2 (by norm_num)⟩

/-! ## Bulk fetch and chunking -/

/-- `chunk_list` splits a list into consecutive chunks: they concatenate
back to the input, every chunk is nonempty with at most `n` elements, and
every chunk except possibly the last has exactly `n`. -/
theorem chunkAux_spec (n : Nat) (hn : 0 < n) :
    ∀ (fuel : Nat) (l : List α), l.length ≤ fuel →
      (chunkAux n fuel l).flatten = l
      ∧ (∀ c ∈ (chunkAux n fuel l).dropLast, c.length = n)
      ∧ (∀ c ∈ chunkAux n fuel l, 0 < c.length ∧ c.length ≤ n) := by
  intro fuel
  induction fuel with
  | zero =>
    intro l hl
    have he : l = [] := List.eq_nil_of_length_eq_zero (Nat.le_zero.mp hl)
    subst he
    refine ⟨?_, ?_, ?_⟩ <;> simp [chunkAux]
  | succ N ih =>
    intro l hl
    by_cases he : l = []
    · subst he
      refine ⟨?_, ?_, ?_⟩ <;> simp [chunkAux]
    · have hne : l.isEmpty = false := by simpa [List.isEmpty_iff] using he
      have hchunk : chunkAux n (N + 1) l =
          l.take n :: chunkAux n N (l.drop n) := by
        rw [chunkAux]
        simp [hne]
      have hlpos : 0 < l.length := List.length_pos.mpr he
      have hdl : (l.drop n).length ≤ N := by
        rw [List.length_drop]
        omega
      obtain ⟨ih1, ih2, ih3⟩ := ih (l.drop n) hdl
      refine ⟨?_, ?_, ?_⟩
      · rw [hchunk, List.flatten_cons, ih1, List.take_append_drop]
      · rw [hchunk]
        cases hd : chunkAux n N (l.drop n) with
        | nil => simp
        | cons c cs =>
          have hdl2 : (l.take n :: c :: cs).dropLast =
              l.take n :: (c :: cs).dropLast := rfl
          rw [hdl2]
          intro c' hc'
          rcases List.mem_cons.mp hc' with rfl | hmem
          · have hdne : l.drop n ≠ [] := by
              intro h0
              rw [h0] at hd
              cases N <;> simp [chunkAux] at hd
            have hlen : n < l.length := by
              by_contra hcon
              exact hdne (List.drop_eq_nil_of_le (not_lt.mp hcon))
            rw [List.length_take]
            omega
          · exact ih2 c' (hd ▸ hmem)
      · rw [hchunk]
        intro c' hc'
        rcases List.mem_cons.mp hc' with rfl | hmem
        · rw [List.length_take]
          omega
        · exact ih3 c' hmem

/-- `chunk_list` splits a list into consecutive chunks: they concatenate
back to the input, every chunk is nonempty with at most `n` elements, and
every chunk except possibly the last has exactly `n`. -/
theorem chunk_list_spec (n : Nat) (hn : 0 < n) (l : List α) :
    (chunk_list l n).flatten = l
    ∧ (∀ c ∈ (chunk_list l n).dropLast, c.length = n)
    ∧ (∀ c ∈ chunk_list l n, 0 < c.length ∧ c.length ≤ n) :=
  chunkAux_spec n hn l.length l le_rfl

/-- Claim C6: `get_paper_bulk` splits the identifier list into
consecutive chunks of at most `BATCH_SIZE = 500` (all of exactly 500
except possibly a shorter last one, concatenating back to the input),
issues one batch request per chunk, and keeps only the non-null entries
of each returned array: the batch response `[{...id1}, null]` for
`["id1", "id2"]` contributes exactly one normalized record. -/
theorem get_paper_bulk_chunks_and_skips_null (l : List String) :
    ((chunk_list l BATCH_SIZE).flatten = l
      ∧ (∀ c ∈ (chunk_list l BATCH_SIZE).dropLast, c.length = BATCH_SIZE)
      ∧ (∀ c ∈ chunk_list l BATCH_SIZE, 0 < c.length ∧ c.length ≤ BATCH_SIZE))
    ∧ ∃ p, get_paper_bulk ["id1", "id2"]
        (fun _ => some (200,
          [BatchEntry.obj
            [("paperId", JVal.jstr "id1"), ("title", JVal.jnull),
             ("abstract", JVal.jnull), ("year", JVal.jnull),
             ("venue", JVal.jnull), ("url", JVal.jnull),
             ("externalIds", JVal.jnull), ("publicationTypes", JVal.jnull),
             ("publicationDate", JVal.jnull), ("journal", JVal.jnull)],
           BatchEntry.jnull])) = some [p]
        ∧ p.paper_id = JVal.jstr "id1" := by
  constructor
  · exact chunk_list_spec BATCH_SIZE (by norm_num [BATCH_SIZE]) l
  · exact ⟨⟨JVal.jstr "id1", JVal.jnull, JVal.jnull, JVal.jarr [],
      JVal.jnull, JVal.jnum 0, JVal.jnum 0, JVal.jnum 0, JVal.jnull,
      JVal.jnull, JVal.jnull, JVal.jnull, JVal.jnull, JVal.jnull,
      JVal.jnull, JVal.jnull, JVal.jnull, JVal.jnull, JVal.jnull,
      JVal.jnull, JVal.jnull⟩, rfl, rfl⟩

/-! ## Preprint XML parsing -/

/-- Claim C8: an entry holding only a non-empty `<title>` parses to a
record with the whitespace-collapsed title and empty authors, abstract,
identifier, PDF URL and categories; an entry with no `<title>` gets the
placeholder title `"Unknown Title"`, and with no `<summary>` the abstract
is empty. -/
theorem parse_entry_defaults (s : String) :
    parse_entry (XmlElem.mk "entry" [] none
        [XmlElem.mk "title" [] (some s) []]) =
      some ⟨collapseWS s, [], "", "", some "", "", []⟩
    ∧ parse_entry (XmlElem.mk "entry" [] none []) =
      some ⟨"Unknown Title", [], "", "", some "", "", []⟩ := by
  constructor
  · rfl
  · rfl

/-- Claim C9: when the document-level XML parse fails (a `ParseError`,
modelled as parse outcome `none`), the single fetch parser returns `None`
and the search parser returns the empty list; neither raises. -/
theorem malformed_xml_yields_empty (fromstring : String → Option XmlElem)
    (s : String) (h : fromstring s = none) :
    parse_arxiv_response (fromstring s) = none
    ∧ parse_arxiv_search_response (fromstring s) = [] := by
  rw [h]
  exact ⟨rfl, rfl⟩

/-- Witness for `malformed_xml_yields_empty` with a parser rejecting the
document `"<"`. -/
theorem malformed_xml_yields_empty_witness :
    parse_arxiv_response ((fun _ => (none : Option XmlElem)) "<") = none
    ∧ parse_arxiv_search_response ((fun _ => (none : Option XmlElem)) "<") = [] :=
  malformed_xml_yields_empty (fun _ => none) "<" rfl

end MultiAgentResearch
